import Mathlib

/-!
Verification development for the job-dispatch script `run_af3complex.py`.

The script coordinates worker processes over a shared backlog of
structure-prediction jobs.  Its core pieces, embedded below:

* the Processing Registry (`add_to_processing`, `remove_from_processing`,
  `is_in_processing`) over a newline-delimited backing store, modelled as an
  `Option (List String)` (`none` = the backing file does not exist, lines
  otherwise);
* the filesystem fragment the script touches: the tree of result directories
  under the output directory, each holding named JSON files;
* the per-job pipeline of `main` (`processJob`): skip check, registry add,
  engine subprocess, optional ligand-free second run, guaranteed cleanup, and
  the score-based result selection, including the faithful semantics of the
  `except (FileNotFoundError, json.JSONDecondeError, KeyError)` clause whose
  middle name does not exist in Python's `json` module;
* the backlog loop (`processAll`).

The external inference engine is a black box: it is a parameter
`Engine := JobDef → FS → Bool × FS` (exit status and its effect on the
output tree); it has no access to the registry, which only the script itself
mutates.
-/

namespace AF3

/-- Python exception kinds that can arise in the embedded fragment. -/
inductive PyExc
  | fileNotFound
  | jsonDecode
  | keyError
  | attributeError
deriving DecidableEq

/-- One entry of a job's `sequences` list.  `hasLigand` records whether the
component dictionary carries a `ligand` key (the test `'ligand' in seq`);
`payload` stands for the rest of the component, which the script never
inspects. -/
structure SeqComp where
  hasLigand : Bool
  payload : String
deriving DecidableEq

/-- A job definition as the script reads it from JSON: a `name`, an optional
`sequences` list (the script uses `.get('sequences', [])`), and all remaining
fields, which the script never touches. -/
structure JobDef where
  name : String
  sequences : Option (List SeqComp)
  others : List (String × String)
deriving DecidableEq

/-- Line 93 of the source: `any('ligand' in seq for seq in sequences)` with
`sequences = individual_json.get('sequences', [])`. -/
def containsLigand (j : JobDef) : Bool :=
  (j.sequences.getD []).any (·.hasLigand)

/-! ## Processing Registry (lines 18-60 of the source) -/

/-- Line 25-32: open in `a+` mode (creates a missing file), read the current
lines, append the name if and only if it is not already present. -/
def add_to_processing (store : Option (List String)) (object_name : String) :
    Option (List String) :=
  let current_objects := store.getD []
  some (if object_name ∈ current_objects then current_objects
        else current_objects ++ [object_name])

/-- The rewrite loop of lines 42-44: every line different from the name is
written back, in order; lines equal to the name are dropped. -/
def rewriteKeep (object_name : String) : List String → List String
  | [] => []
  | obj :: rest =>
    if obj ≠ object_name then obj :: rewriteKeep object_name rest
    else rewriteKeep object_name rest

/-- Lines 34-47: rewrite the store without the name; a missing backing file
(`FileNotFoundError`) is a no-op. -/
def remove_from_processing (store : Option (List String)) (object_name : String) :
    Option (List String) :=
  match store with
  | none => none
  | some current_objects => some (rewriteKeep object_name current_objects)

/-- Lines 49-60: membership test; a missing backing file reads as `False`. -/
def is_in_processing (store : Option (List String)) (object_name : String) : Bool :=
  match store with
  | none => false
  | some current_objects => decide (object_name ∈ current_objects)

theorem mem_rewriteKeep_iff (n m : String) (l : List String) :
    m ∈ rewriteKeep n l ↔ m ∈ l ∧ m ≠ n := by
  induction l with
  | nil => simp [rewriteKeep]
  | cons a t ih =>
    by_cases h : a = n
    · rw [show rewriteKeep n (a :: t) = rewriteKeep n t from by simp [rewriteKeep, h]]
      rw [ih]
      simp only [List.mem_cons]
      constructor
      · exact fun hx => ⟨Or.inr hx.1, hx.2⟩
      · rintro ⟨h1 | h1, h2⟩
        · exact absurd (h1.trans h) h2
        · exact ⟨h1, h2⟩
    · rw [show rewriteKeep n (a :: t) = a :: rewriteKeep n t from by simp [rewriteKeep, h]]
      simp only [List.mem_cons, ih]
      constructor
      · rintro (rfl | ⟨h1, h2⟩)
        · exact ⟨Or.inl rfl, h⟩
        · exact ⟨Or.inr h1, h2⟩
      · rintro ⟨rfl | h1, h2⟩
        · exact Or.inl rfl
        · exact Or.inr ⟨h1, h2⟩

theorem count_rewriteKeep_self (n : String) (l : List String) :
    (rewriteKeep n l).count n = 0 := by
  induction l with
  | nil => simp [rewriteKeep]
  | cons a t ih =>
    by_cases h : a = n
    · simp [rewriteKeep, h, ih]
    · simp [rewriteKeep, h, ih, List.count_cons]

theorem count_rewriteKeep_other (n m : String) (hm : m ≠ n) (l : List String) :
    (rewriteKeep n l).count m = l.count m := by
  induction l with
  | nil => rfl
  | cons a t ih =>
    by_cases h : a = n
    · subst h
      simp [rewriteKeep, List.count_cons, ih, hm]
    · simp [rewriteKeep, h, List.count_cons, ih]

theorem sublist_rewriteKeep (n : String) (l : List String) :
    (rewriteKeep n l).Sublist l := by
  induction l with
  | nil => exact List.Sublist.refl _
  | cons a t ih =>
    by_cases h : a = n
    · simpa [rewriteKeep, h] using ih.cons a
    · simpa [rewriteKeep, h] using ih.cons₂ a

/-! ## Output-directory tree -/

/-- Content of one JSON file inside a result directory, as far as the script
inspects it: unparsable text, a summary object with an optional numeric
`ranking_score` field, or an intermediate data object holding a job
definition. -/
inductive JFile
  | malformed
  | summary (rankingScore : Option Rat)
  | dataObj (j : JobDef)
deriving DecidableEq

/-- One result directory: its files by name. -/
structure FolderData where
  files : List (String × JFile)
deriving DecidableEq

/-- The output-directory tree: result directories keyed by their (relative)
name under `output_dir`. -/
structure FS where
  dirs : String → Option FolderData

/-- Check of `os.path.isdir(os.path.join(output_dir, d))`. -/
def FS.isdir (fs : FS) (d : String) : Bool :=
  (fs.dirs d).isSome

/-- Reading the file `f` inside directory `d`; `none` when the directory or
the file is missing. -/
def FS.readFile (fs : FS) (d f : String) : Option JFile :=
  (fs.dirs d).bind (fun dir => dir.files.lookup f)

/-- Semantics of `shutil.rmtree`: fails with `FileNotFoundError` when the
directory does not exist. -/
def FS.rmtree (fs : FS) (d : String) : Except PyExc FS :=
  match fs.dirs d with
  | none => .error .fileNotFound
  | some _ => .ok ⟨fun x => if x = d then none else fs.dirs x⟩

/-- Semantics of `os.rename` on a directory: fails when the source does not
exist; otherwise the tree is re-keyed from `src` to `dst`. -/
def FS.rename (fs : FS) (src dst : String) : Except PyExc FS :=
  match fs.dirs src with
  | none => .error .fileNotFound
  | some dir =>
    .ok ⟨fun x => if x = dst then some dir else if x = src then none else fs.dirs x⟩

/-! ## Result Selector (lines 161-188 of the source) -/

/-- Embedding of Python's `str.lower()` for the ASCII job names this script
handles: lowercase every character. -/
def strToLower (s : String) : String := ⟨s.data.map Char.toLower⟩

/-- Line 122/164: `protein_folder = os.path.join(output_dir, protein_id.lower())`. -/
def canonFolder (pid : String) : String := strToLower pid

/-- Line 165: the primary summary file name. -/
def canonSummaryFile (pid : String) : String :=
  strToLower pid ++ "_summary_confidences.json"

/-- Line 166: the ligand-free result directory. -/
def wlFolder (pid : String) : String := strToLower pid ++ "_without_ligands"

/-- Line 167: the ligand-free summary file name. -/
def wlSummaryFile (pid : String) : String :=
  strToLower pid ++ "_without_ligands_summary_confidences.json"

/-- Line 123: the intermediate data artifact of the primary run. -/
def dataFile (pid : String) : String := strToLower pid ++ "_data.json"

/-- Lines 169-171 (and 174-176): `open` + `json.load` + `.get('ranking_score', -1)`.
A missing directory or file raises `FileNotFoundError`, unparsable content
raises `json.JSONDecodeError`, and a parsed object without the field yields
the sentinel `-1`. -/
def readRankingScore (fs : FS) (folder file : String) : Except PyExc Rat :=
  match fs.readFile folder file with
  | none => .error .fileNotFound
  | some .malformed => .error .jsonDecode
  | some (.summary r) => .ok (r.getD (-1))
  | some (.dataObj _) => .ok (-1)

/-- The body of the `try` at lines 162-185: read both ranking scores, then
keep the higher-scoring result (`if protein_ranking_score >
without_ligand_ranking_score` at line 180).  On an exception the error is
returned together with the tree as it stands at the raise point. -/
def selectorTry (fs : FS) (pid : String) : Except (PyExc × FS) FS :=
  match readRankingScore fs (canonFolder pid) (canonSummaryFile pid) with
  | .error e => .error (e, fs)
  | .ok protein_ranking_score =>
    match readRankingScore fs (wlFolder pid) (wlSummaryFile pid) with
    | .error e => .error (e, fs)
    | .ok without_ligand_ranking_score =>
      if protein_ranking_score > without_ligand_ranking_score then
        match fs.rmtree (wlFolder pid) with
        | .error e => .error (e, fs)
        | .ok fs1 => .ok fs1
      else
        match fs.rmtree (canonFolder pid) with
        | .error e => .error (e, fs)
        | .ok fs1 =>
          match fs1.rename (wlFolder pid) (canonFolder pid) with
          | .error e => .error (e, fs1)
          | .ok fs2 => .ok fs2

/-- Exception-type attributes that Python's `json` module actually exposes:
the module's decode-error class is named `JSONDecodeError`. -/
def jsonModuleExcNames : List String := ["JSONDecodeError"]

/-- The attribute name written in the `except` clause at line 187 of the
source: `json.JSONDecondeError`. -/
def exceptClauseAttrName : String := "JSONDecondeError"

/-- Lines 161-188 as a whole: the `try` body plus the
`except (FileNotFoundError, json.JSONDecondeError, KeyError)` clause.
Python evaluates the handler's tuple only when the body raises; looking up
`json.JSONDecondeError` then raises `AttributeError` when the attribute does
not exist, which replaces the original exception and propagates.  Only if
the attribute existed would the listed exception kinds be caught and
logged. -/
def selectorStep (fs : FS) (pid : String) : Except (PyExc × FS) FS :=
  match selectorTry fs pid with
  | .ok fs1 => .ok fs1
  | .error (e, fs1) =>
    if exceptClauseAttrName ∈ jsonModuleExcNames then
      match e with
      | .fileNotFound => .ok fs1
      | .jsonDecode => .ok fs1
      | .keyError => .ok fs1
      | _ => .error (e, fs1)
    else
      .error (.attributeError, fs1)

/-! ## Job Dispatcher (the `main` loop, lines 68-188 of the source) -/

/-- Observable events of one Dispatcher pass: a job skipped by the dedup
check, an invocation of the external engine (`subprocess.run` on
`run_intermediate.py`, lines 117 and 150) with the serialized job definition,
and entry into the Result Selector block (line 161). -/
inductive Ev
  | skipped (name : String)
  | execInvoked (j : JobDef)
  | selectorInvoked (pid : String)
deriving DecidableEq

/-- Dispatcher-visible state: the output-directory tree and the registry
backing store. -/
structure St where
  fs : FS
  reg : Option (List String)

/-- The external inference engine as a black box: given the job definition it
was invoked on and the current output tree, it reports its exit status
(`true` = exit 0) and the new output tree.  It has no access to the registry
file. -/
def Engine : Type := JobDef → FS → Bool × FS

/-- Lines 128-130: rename the loaded data object with the fixed ligand-free
suffix and filter out every component carrying a `ligand` key
(`new_sequences = [seq for seq in new_json.get('sequences', []) if 'ligand'
not in seq]`). -/
def deriveSecondary (j : JobDef) : JobDef :=
  { j with
    name := j.name ++ "_without_ligands",
    sequences := some ((j.sequences.getD []).filter (fun s => !s.hasLigand)) }

/-- Lines 120-152, reached only when the primary run exited 0 and the job is
ligand-bearing: if the intermediate data artifact exists, load it, derive the
ligand-free secondary definition and invoke the engine on it.  Returns the
output tree, an exception that the surrounding `try` does NOT catch
(`json.load` or the `name` lookup failing), and the engine invocations
performed.  A failing secondary run raises `CalledProcessError`, which IS
caught at line 153, so it surfaces as no exception here. -/
def ligandPhase (engine : Engine) (j : JobDef) (fs : FS) :
    FS × Option PyExc × List Ev :=
  match fs.readFile (canonFolder j.name) (dataFile j.name) with
  | none => (fs, none, [])
  | some .malformed => (fs, some .jsonDecode, [])
  | some (.summary _) => (fs, some .keyError, [])
  | some (.dataObj dj) =>
    let nj := deriveSecondary dj
    let res := engine nj fs
    (res.2, none, [.execInvoked nj])

/-- The execution phase of one job — the `try` body of lines 113-152 after
the registry `add`: the primary engine run, then, only when it exited 0 and
the job is ligand-bearing, the ligand second phase.  Returns the output
tree, the exception the `try` does not catch (if any) and the engine
invocations performed. -/
def execPhase (engine : Engine) (st : St) (j : JobDef) : FS × Option PyExc × List Ev :=
  if (engine j st.fs).1 && containsLigand j then ligandPhase engine j (engine j st.fs).2
  else ((engine j st.fs).2, none, [])

/-- Outcome of processing one job (or a whole pass): either normal completion
or an uncaught Python exception that aborts the `for` loop, each with the
state it leaves behind. -/
inductive StepOut
  | ok (st : St)
  | exc (e : PyExc) (st : St)

/-- State carried by an outcome. -/
def StepOut.st : StepOut → St
  | .ok s => s
  | .exc _ s => s

/-- Exception carried by an outcome, if any. -/
def StepOut.excOf : StepOut → Option PyExc
  | .ok _ => none
  | .exc e _ => some e

/-- Line 88 of the source: the duplicate check — an output directory under
the original-case name, an output directory under the lowercased name, or a
registry entry. -/
def skipCheck (st : St) (j : JobDef) : Bool :=
  st.fs.isdir j.name || st.fs.isdir (strToLower j.name) || is_in_processing st.reg j.name

/-- One iteration of the `for` loop over the backlog (lines 82-188): dedup
check; registry `add`; primary engine run; optional ligand-free secondary
run; the `finally` cleanup (registry `remove`, line 158), which runs on
success, on a caught `CalledProcessError` and before an uncaught exception
propagates; then, for ligand-bearing jobs, the Result Selector block. -/
def processJob (engine : Engine) (st : St) (j : JobDef) : StepOut × List Ev :=
  if skipCheck st j then
    (.ok st, [.skipped j.name])
  else
    let reg1 := add_to_processing st.reg j.name
    let phase := execPhase engine st j
    let reg2 := remove_from_processing reg1 j.name
    match phase.2.1 with
    | some e => (.exc e ⟨phase.1, reg2⟩, .execInvoked j :: phase.2.2)
    | none =>
      if containsLigand j then
        match selectorStep phase.1 j.name with
        | .ok fs3 =>
          (.ok ⟨fs3, reg2⟩, .execInvoked j :: (phase.2.2 ++ [.selectorInvoked j.name]))
        | .error (e, fs3) =>
          (.exc e ⟨fs3, reg2⟩, .execInvoked j :: (phase.2.2 ++ [.selectorInvoked j.name]))
      else
        (.ok ⟨phase.1, reg2⟩, .execInvoked j :: phase.2.2)

/-- The whole Dispatcher pass: the `for` loop runs job after job and stops
only when an uncaught exception propagates out of an iteration. -/
def processAll (engine : Engine) (st : St) : List JobDef → StepOut × List Ev
  | [] => (.ok st, [])
  | j :: rest =>
    match processJob engine st j with
    | (.ok st1, ev) =>
      let r := processAll engine st1 rest
      (r.1, ev ++ r.2)
    | (.exc e st1, ev) => (.exc e st1, ev)

/-- Whether an event is an engine invocation. -/
def Ev.isExec : Ev → Bool
  | .execInvoked _ => true
  | _ => false

/-- Number of engine invocations recorded in a trace. -/
def countExec (evs : List Ev) : Nat := evs.countP Ev.isExec

/-! ## Concrete fixtures used by counterexamples and witnesses -/

/-- An empty output directory. -/
def emptyFS : FS := ⟨fun _ => none⟩

/-- Fresh state: empty output tree, no registry backing file yet. -/
def st0 : St := ⟨emptyFS, none⟩

/-- An engine whose every invocation exits non-zero and leaves the output
tree unchanged. -/
def failEngine : Engine := fun _ fs => (false, fs)

/-- An engine whose every invocation exits 0 and leaves the output tree
unchanged. -/
def okEngine : Engine := fun _ fs => (true, fs)

/-- A ligand-bearing job. -/
def jobL : JobDef := ⟨"liga", some [⟨true, "ATP"⟩], []⟩

/-- A non-ligand-bearing job. -/
def jobA : JobDef := ⟨"prot1", some [⟨false, "MKV"⟩], []⟩

/-- A second non-ligand-bearing job. -/
def jobB : JobDef := ⟨"prot2", some [⟨false, "MSA"⟩], []⟩

/-- Observation of a selector outcome: the binding of directory `d` after a
successful run, `none` when the run raised. -/
def selOutDirs (r : Except (PyExc × FS) FS) (d : String) : Option (Option FolderData) :=
  match r with
  | .ok fs => some (fs.dirs d)
  | .error _ => none

/-- The canonical result directory of a job and its ligand-free sibling have
distinct names. -/
theorem canonFolder_ne_wlFolder (pid : String) : canonFolder pid ≠ wlFolder pid := by
  intro h
  have h1 := congrArg String.length h
  rw [canonFolder, wlFolder, String.length_append] at h1
  have h2 : ("_without_ligands" : String).length = 16 := rfl
  omega

/-- A successful score read implies the directory holding the summary
exists. -/
theorem readRankingScore_ok_dir (fs : FS) (folder file : String) (q : Rat)
    (h : readRankingScore fs folder file = .ok q) :
    ∃ d, fs.dirs folder = some d := by
  cases hd : fs.dirs folder with
  | some d => exact ⟨d, rfl⟩
  | none =>
    exfalso
    simp [readRankingScore, FS.readFile, hd] at h

/-- Full characterization of a comparison in which both summary reads
succeed: the ligand-free directory always disappears; the canonical name
keeps its own content exactly when the primary score is strictly greater and
otherwise receives the ligand-free content; every other directory is
untouched. -/
theorem selectorTry_spec (fs : FS) (pid : String) (sp sw : Rat)
    (hp : readRankingScore fs (canonFolder pid) (canonSummaryFile pid) = .ok sp)
    (hw : readRankingScore fs (wlFolder pid) (wlSummaryFile pid) = .ok sw) :
    ∃ fsout, selectorTry fs pid = .ok fsout ∧
      fsout.dirs (wlFolder pid) = none ∧
      fsout.dirs (canonFolder pid) =
        (if sp > sw then fs.dirs (canonFolder pid) else fs.dirs (wlFolder pid)) ∧
      ∀ d, d ≠ canonFolder pid → d ≠ wlFolder pid → fsout.dirs d = fs.dirs d := by
  obtain ⟨dc, hdc⟩ := readRankingScore_ok_dir _ _ _ _ hp
  obtain ⟨dw, hdw⟩ := readRankingScore_ok_dir _ _ _ _ hw
  have hne := canonFolder_ne_wlFolder pid
  by_cases hgt : sp > sw
  · simp only [selectorTry, hp, hw, if_pos hgt, FS.rmtree, hdw]
    refine ⟨_, rfl, ?_, ?_, ?_⟩
    · simp [FS.dirs]
    · simp [FS.dirs, hne, hgt]
    · intro d h1 h2
      simp [FS.dirs, h2]
  · simp only [selectorTry, hp, hw, if_neg hgt, FS.rmtree, hdc, FS.rename]
    rw [if_neg (Ne.symm hne), hdw]
    refine ⟨_, rfl, ?_, ?_, ?_⟩
    · simp [FS.dirs, Ne.symm hne]
    · simp [FS.dirs, hgt, hdw]
    · intro d h1 h2
      simp [FS.dirs, h1, h2]

/-- The registry left behind by a non-skipped job is the result of the
`finally` block's `remove` after the initial `add`. -/
theorem processJob_reg (engine : Engine) (st : St) (j : JobDef)
    (h : skipCheck st j = false) :
    ((processJob engine st j).1.st).reg
      = remove_from_processing (add_to_processing st.reg j.name) j.name := by
  have h' : ¬ (skipCheck st j = true) := by simp [h]
  simp only [processJob, if_neg h']
  split
  · rfl
  · split
    · split <;> rfl
    · rfl

/-- A remove-after-add round trip never leaves a name that was absent
before. -/
theorem notin_after_remove_add (store : Option (List String)) (jn n : String)
    (h : is_in_processing store n = false) :
    is_in_processing (remove_from_processing (add_to_processing store jn) jn) n = false := by
  have hnl : n ∉ store.getD [] := by
    cases store with
    | none => simp
    | some l => simpa [is_in_processing] using h
  simp only [add_to_processing, remove_from_processing, is_in_processing,
    decide_eq_false_iff_not, mem_rewriteKeep_iff]
  rintro ⟨hmem, hne⟩
  by_cases hil : jn ∈ store.getD []
  · rw [if_pos hil] at hmem
    exact hnl hmem
  · rw [if_neg hil] at hmem
    rcases List.mem_append.mp hmem with h1 | h1
    · exact hnl h1
    · exact hne (List.mem_singleton.mp h1)

/-- A remove-after-add round trip never leaves the very name it removed,
whatever the store held before. -/
theorem notin_remove_self (store : Option (List String)) (jn : String) :
    is_in_processing (remove_from_processing (add_to_processing store jn) jn) jn = false := by
  simp only [add_to_processing, remove_from_processing, is_in_processing,
    decide_eq_false_iff_not, mem_rewriteKeep_iff]
  rintro ⟨hmem, hne⟩
  exact hne rfl

/-- One loop iteration never leaves a registry entry that was not there when
the iteration started, whatever its outcome. -/
theorem processJob_notin (engine : Engine) (st : St) (j : JobDef) (n : String)
    (h : is_in_processing st.reg n = false) :
    is_in_processing ((processJob engine st j).1.st).reg n = false := by
  by_cases hs : skipCheck st j
  · simpa [processJob, hs, StepOut.st] using h
  · have h' : skipCheck st j = false := by simpa using hs
    rw [processJob_reg engine st j h']
    exact notin_after_remove_add st.reg j.name n h

/-- A whole Dispatcher pass never leaves a registry entry that was not there
when the pass started, even when it aborts with an uncaught exception. -/
theorem processAll_notin (engine : Engine) (jobs : List JobDef) (st : St) (n : String)
    (h : is_in_processing st.reg n = false) :
    is_in_processing ((processAll engine st jobs).1.st).reg n = false := by
  induction jobs generalizing st with
  | nil => simpa [processAll, StepOut.st] using h
  | cons j rest ih =>
    have hstep := processJob_notin engine st j n h
    cases hpj : processJob engine st j with
    | mk out ev =>
      rw [hpj] at hstep
      cases out with
      | ok st1 =>
        simp only [processAll, hpj]
        exact ih st1 (by simpa [StepOut.st] using hstep)
      | exc e st1 =>
        simp only [processAll, hpj]
        simpa [StepOut.st] using hstep

/-- A job that passes the dedup check always reaches the primary engine
invocation first. -/
theorem processJob_trace_head (engine : Engine) (st : St) (j : JobDef)
    (h : skipCheck st j = false) :
    ∃ t, (processJob engine st j).2 = .execInvoked j :: t := by
  have h' : ¬ (skipCheck st j = true) := by simp [h]
  simp only [processJob, if_neg h']
  split
  · exact ⟨_, rfl⟩
  · split
    · split
      · exact ⟨_, rfl⟩
      · exact ⟨_, rfl⟩
    · exact ⟨_, rfl⟩

/-- The engine runs for a job exactly when the dedup check passes. -/
theorem processJob_exec_iff (engine : Engine) (st : St) (j : JobDef) :
    countExec (processJob engine st j).2 ≠ 0 ↔ skipCheck st j = false := by
  constructor
  · intro hc
    by_cases hs : skipCheck st j
    · exfalso
      apply hc
      simp [processJob, hs, countExec, Ev.isExec]
    · simpa using hs
  · intro hs
    obtain ⟨t, ht⟩ := processJob_trace_head engine st j hs
    rw [ht]
    simp [countExec, List.countP_cons, Ev.isExec]

/-- A pass over a backlog whose every job already has a lowercased output
directory performs no engine invocation at all. -/
theorem processAll_allskip (engine : Engine) (jobs : List JobDef) (st : St)
    (h : ∀ j ∈ jobs, st.fs.isdir (strToLower j.name) = true) :
    countExec (processAll engine st jobs).2 = 0 := by
  induction jobs with
  | nil => simp [processAll, countExec]
  | cons j rest ih =>
    have hs : skipCheck st j = true := by
      simp [skipCheck, h j (List.mem_cons_self j rest)]
    have hpj : processJob engine st j = (.ok st, [.skipped j.name]) := by
      simp [processJob, hs]
    simp only [processAll, hpj, countExec]
    rw [List.countP_append]
    have h0 := ih (fun x hx => h x (List.mem_cons_of_mem _ hx))
    simp only [countExec] at h0
    simp [List.countP_cons, Ev.isExec, h0]

/-- The trace of the ligand second phase never records a Selector entry. -/
theorem selector_not_in_ligandPhase (engine : Engine) (j : JobDef) (fs : FS) (s : String) :
    Ev.selectorInvoked s ∉ (ligandPhase engine j fs).2.2 := by
  unfold ligandPhase
  split <;> simp

/-- The trace of the execution phase never records a Selector entry. -/
theorem selector_not_in_execPhase (engine : Engine) (st : St) (j : JobDef) (s : String) :
    Ev.selectorInvoked s ∉ (execPhase engine st j).2.2 := by
  unfold execPhase
  split
  · exact selector_not_in_ligandPhase engine j (engine j st.fs).2 s
  · simp

/-! ## Fixtures for the selector counterexamples and witnesses -/

/-- Canonical result directory of a tied comparison, score 1. -/
def dirTieCanon : FolderData := ⟨[("abc_summary_confidences.json", .summary (some 1))]⟩

/-- Ligand-free result directory of a tied comparison, score 1. -/
def dirTieWl : FolderData :=
  ⟨[("abc_without_ligands_summary_confidences.json", .summary (some 1))]⟩

/-- Output tree with both candidate results of job `abc` scoring exactly 1. -/
def fsTie : FS :=
  ⟨fun x => if x = "abc" then some dirTieCanon
            else if x = "abc_without_ligands" then some dirTieWl else none⟩

/-- Canonical result directory whose summary lacks `ranking_score`. -/
def dirNoScore : FolderData := ⟨[("abc_summary_confidences.json", .summary none)]⟩

/-- Ligand-free result directory with score one half. -/
def dirHalf : FolderData :=
  ⟨[("abc_without_ligands_summary_confidences.json", .summary (some (1/2)))]⟩

/-- Output tree where the primary summary has no score and the ligand-free
summary scores one half. -/
def fsNoScore : FS :=
  ⟨fun x => if x = "abc" then some dirNoScore
            else if x = "abc_without_ligands" then some dirHalf else none⟩

/-- A data artifact content: a ligand and a protein chain plus one extra
field. -/
def djW : JobDef := ⟨"liga", some [⟨true, "ATP"⟩, ⟨false, "MKV"⟩], [("modelSeeds", "1")]⟩

/-- Output tree holding the intermediate data artifact of `djW`. -/
def fsData : FS :=
  ⟨fun x => if x = "liga" then some ⟨[("liga_data.json", .dataObj djW)]⟩ else none⟩

/-- State whose output tree already has the lowercased directory of `jobA`. -/
def stDone : St := ⟨⟨fun x => if x = "prot1" then some ⟨[]⟩ else none⟩, none⟩

/-! ## Claims -/

/-- Claim C1, counterexample: with both candidate results present and both
scoring exactly 1 (a tie), the code takes the `else` branch of line 180 —
it deletes the Canonical directory and renames the ligand-free directory
over it, so the Canonical name ends up holding the ligand-free content
instead of being left unchanged as the claim states for ties. -/
theorem C1_tie_counterexample :
    readRankingScore fsTie (canonFolder "abc") (canonSummaryFile "abc") = .ok 1 ∧
    readRankingScore fsTie (wlFolder "abc") (wlSummaryFile "abc") = .ok 1 ∧
    selOutDirs (selectorTry fsTie "abc") (canonFolder "abc")
      = some (fsTie.dirs (wlFolder "abc")) ∧
    selOutDirs (selectorTry fsTie "abc") (canonFolder "abc")
      ≠ some (fsTie.dirs (canonFolder "abc")) :=
  ⟨rfl, rfl, by decide, by decide⟩

/-- Claim C1, amended: when both summary reads succeed, the Selector deletes
the primary directory and renames the ligand-free directory to the Canonical
name exactly when the ligand-free score is greater than OR EQUAL to the
primary score; only when the primary score is strictly greater does it
delete the ligand-free directory and leave the Canonical directory
unchanged.  All other directories are untouched either way. -/
theorem C1_selection_amended (fs : FS) (pid : String) (sp sw : Rat)
    (hp : readRankingScore fs (canonFolder pid) (canonSummaryFile pid) = .ok sp)
    (hw : readRankingScore fs (wlFolder pid) (wlSummaryFile pid) = .ok sw) :
    ∃ fsout, selectorTry fs pid = .ok fsout ∧
      fsout.dirs (wlFolder pid) = none ∧
      (sw ≥ sp → fsout.dirs (canonFolder pid) = fs.dirs (wlFolder pid)) ∧
      (sp > sw → fsout.dirs (canonFolder pid) = fs.dirs (canonFolder pid)) ∧
      ∀ d, d ≠ canonFolder pid → d ≠ wlFolder pid → fsout.dirs d = fs.dirs d := by
  obtain ⟨fsout, h1, h2, h3, h4⟩ := selectorTry_spec fs pid sp sw hp hw
  refine ⟨fsout, h1, h2, ?_, ?_, h4⟩
  · intro hge
    rw [h3, if_neg (not_lt.mpr hge)]
  · intro hgt
    rw [h3, if_pos hgt]

/-- Witness for C1 amended, at the tied tree `fsTie`. -/
theorem C1_selection_amended_witness :
    ∃ fsout, selectorTry fsTie "abc" = .ok fsout ∧
      fsout.dirs (wlFolder "abc") = none ∧
      ((1:Rat) ≥ 1 → fsout.dirs (canonFolder "abc") = fsTie.dirs (wlFolder "abc")) ∧
      ((1:Rat) > 1 → fsout.dirs (canonFolder "abc") = fsTie.dirs (canonFolder "abc")) ∧
      ∀ d, d ≠ canonFolder "abc" → d ≠ wlFolder "abc" → fsout.dirs d = fsTie.dirs d :=
  C1_selection_amended fsTie "abc" 1 1 rfl rfl

/-- Claim C2 (code bug): whenever the comparison body raises — a missing
summary file, malformed JSON, a missing key — the `except` clause of line
187 evaluates `json.JSONDecondeError`, an attribute the `json` module does
not have, so the handler itself raises `AttributeError`: the original error
is never caught or logged and an exception always propagates out of the
Selector path, contrary to the claim. -/
theorem C2_selector_error_uncaught (fs : FS) (pid : String) (e : PyExc) (fs1 : FS)
    (h : selectorTry fs pid = .error (e, fs1)) :
    selectorStep fs pid = .error (.attributeError, fs1) := by
  simp [selectorStep, h, exceptClauseAttrName, jsonModuleExcNames]

/-- Witness for C2: on an empty output tree the first summary read raises
`FileNotFoundError` and `AttributeError` propagates. -/
theorem C2_selector_error_uncaught_witness :
    selectorStep emptyFS "liga" = .error (.attributeError, emptyFS) :=
  C2_selector_error_uncaught emptyFS "liga" .fileNotFound emptyFS rfl

/-- Claim C3 (code bug): a backlog of a ligand-bearing job followed by a
plain job, with an engine that always exits non-zero on an empty output
tree.  The engine failure itself is caught, but the ligand branch then
enters the Selector, whose broken handler raises `AttributeError`; the
uncaught exception aborts the whole loop and the second job is never
processed.  For non-ligand-bearing jobs the isolation does work: two failing
plain jobs are both attempted. -/
theorem C3_loop_abort :
    (processAll failEngine st0 [jobL, jobA]).1.excOf = some .attributeError ∧
    (processAll failEngine st0 [jobL, jobA]).2
      = [.execInvoked jobL, .selectorInvoked "liga"] ∧
    Ev.execInvoked jobA ∉ (processAll failEngine st0 [jobL, jobA]).2 ∧
    countExec (processAll failEngine st0 [jobA, jobB]).2 = 2 :=
  ⟨by decide, by decide, by decide, by decide⟩

/-- Claim C4, counterexample: for the ligand-bearing job `jobL` whose
primary execution fails (and which therefore has no second candidate
result), the trace still records entry into the Result Selector — the
block at line 161 is guarded only by `contains_ligand`. -/
theorem C4_invoked_after_failure :
    (failEngine jobL st0.fs).1 = false ∧
    (processJob failEngine st0 jobL).2 = [.execInvoked jobL, .selectorInvoked "liga"] ∧
    Ev.selectorInvoked "liga" ∈ (processJob failEngine st0 jobL).2 :=
  ⟨rfl, by decide, by decide⟩

/-- Claim C4, amended: the Selector block is entered exactly for
ligand-bearing jobs that pass the dedup check and whose execution phase
raised no uncaught exception — in particular it IS entered when the primary
execution failed or no second candidate exists (the execution phase then
raises nothing, since a `CalledProcessError` is caught and a missing data
artifact is skipped quietly); missing results then surface as read errors
inside the Selector rather than preventing its invocation. -/
theorem C4_selector_invocation_amended (engine : Engine) (st : St) (j : JobDef) :
    Ev.selectorInvoked j.name ∈ (processJob engine st j).2 ↔
      (skipCheck st j = false ∧ containsLigand j = true ∧
       (execPhase engine st j).2.1 = none) := by
  by_cases hs : skipCheck st j
  · simp [processJob, hs]
  · have h' : ¬ (skipCheck st j = true) := hs
    have hsf : skipCheck st j = false := by simpa using hs
    simp only [processJob, if_neg h']
    cases hph : (execPhase engine st j).2.1 with
    | some e =>
      simp [hph, hsf, selector_not_in_execPhase engine st j j.name]
    | none =>
      by_cases hl : containsLigand j = true
      · simp only [hph, hl, if_true]
        split <;> simp [hsf, hl, hph]
      · have hl' : containsLigand j = false := by simpa using hl
        simp [hph, hl', hsf, selector_not_in_execPhase engine st j j.name]

/-- Witness for C4 amended: the failing engine on the ligand job enters the
Selector (its primary run failed and no second candidate exists). -/
theorem C4_selector_invocation_amended_witness :
    Ev.selectorInvoked "liga" ∈ (processJob failEngine st0 jobL).2 :=
  (C4_selector_invocation_amended failEngine st0 jobL).mpr (by decide)

/-- Claim C5 (confirmed): for every job that passes the skip check, the
`finally` block's registry `remove` runs on success, on caught execution
failure and before any uncaught exception propagates, so the job's name is
absent from the registry afterwards; moreover a whole Dispatcher pass — even
one aborted by an uncaught exception — never leaves behind a registry entry
that was not already there when the pass started. -/
theorem C5_registry_cleanup :
    (∀ (engine : Engine) (st : St) (j : JobDef),
      skipCheck st j = false →
      is_in_processing ((processJob engine st j).1.st).reg j.name = false) ∧
    ∀ (engine : Engine) (st : St) (jobs : List JobDef) (n : String),
      is_in_processing st.reg n = false →
      is_in_processing ((processAll engine st jobs).1.st).reg n = false := by
  constructor
  · intro engine st j h
    rw [processJob_reg engine st j h]
    exact notin_remove_self st.reg j.name
  · intro engine st jobs n h
    exact processAll_notin engine jobs st n h

/-- Witness for C5, on a fresh state. -/
theorem C5_registry_cleanup_witness :
    is_in_processing ((processJob okEngine st0 jobA).1.st).reg jobA.name = false ∧
    is_in_processing ((processAll okEngine st0 [jobA, jobL]).1.st).reg "other" = false :=
  ⟨C5_registry_cleanup.1 okEngine st0 jobA (by decide),
   C5_registry_cleanup.2 okEngine st0 [jobA, jobL] "other" rfl⟩

/-- Claim C6 (confirmed): the engine is invoked for a job exactly when no
original-case output directory exists, no lowercased output directory
exists and the registry does not contain the name; and a pass over a backlog
whose every job already has its lowercased Canonical Output performs zero
engine invocations. -/
theorem C6_skip_iff :
    (∀ (engine : Engine) (st : St) (j : JobDef),
      countExec (processJob engine st j).2 ≠ 0 ↔
        (st.fs.isdir j.name = false ∧ st.fs.isdir (strToLower j.name) = false ∧
         is_in_processing st.reg j.name = false)) ∧
    ∀ (engine : Engine) (st : St) (jobs : List JobDef),
      (∀ j ∈ jobs, st.fs.isdir (strToLower j.name) = true) →
      countExec (processAll engine st jobs).2 = 0 := by
  constructor
  · intro engine st j
    rw [processJob_exec_iff]
    simp [skipCheck, Bool.or_eq_false_iff, and_assoc]
  · exact fun engine st jobs h => processAll_allskip engine jobs st h

/-- Witness for C6: the fresh state runs `jobA`; the state that already has
the `prot1` directory runs nothing. -/
theorem C6_skip_iff_witness :
    (countExec (processJob okEngine st0 jobA).2 ≠ 0 ↔
      (st0.fs.isdir jobA.name = false ∧ st0.fs.isdir (strToLower jobA.name) = false ∧
       is_in_processing st0.reg jobA.name = false)) ∧
    countExec (processAll okEngine stDone [jobA]).2 = 0 :=
  ⟨C6_skip_iff.1 okEngine st0 jobA,
   C6_skip_iff.2 okEngine stDone [jobA] (by decide)⟩

/-- Claim C7, counterexample: on a backing store already holding the name on
two lines, `add` leaves the contents unchanged, so the name does NOT end up
on exactly one line as the claim states for every backing-store content. -/
theorem C7_add_duplicate_counterexample :
    add_to_processing (some ["A", "A"]) "A" = some ["A", "A"] ∧
    (["A", "A"] : List String).count "A" ≠ 1 :=
  ⟨by decide, by decide⟩

/-- Claim C7, amended: `add` is idempotent — if the name already appears the
contents are unchanged, and adding twice equals adding once — and the
resulting occurrence count of the name is 1 when it was 0 and is otherwise
unchanged (so it is exactly one line precisely when the name occurred at
most once before; pre-existing duplicates are preserved, not collapsed). -/
theorem C7_add_idempotent_amended (store : Option (List String)) (object_name : String) :
    ((object_name ∈ store.getD []) →
      add_to_processing store object_name = some (store.getD [])) ∧
    add_to_processing (add_to_processing store object_name) object_name
      = add_to_processing store object_name ∧
    ((add_to_processing store object_name).getD []).count object_name
      = (if (store.getD []).count object_name = 0 then 1
         else (store.getD []).count object_name) := by
  refine ⟨fun h => by simp [add_to_processing, h], ?_, ?_⟩
  · by_cases h : object_name ∈ store.getD []
    · simp [add_to_processing, h]
    · simp [add_to_processing, h]
  · by_cases h : object_name ∈ store.getD []
    · have h0 : (store.getD []).count object_name ≠ 0 := by
        simp only [ne_eq, List.count_eq_zero]
        simpa using h
      simp [add_to_processing, h, h0]
    · have h0 : (store.getD []).count object_name = 0 := by
        simp only [List.count_eq_zero]
        simpa using h
      simp [add_to_processing, h, h0, List.count_append, List.count_singleton]

/-- Witness for C7 amended. -/
theorem C7_add_idempotent_amended_witness :
    add_to_processing (some ["A"]) "A" = some ["A"] ∧
    add_to_processing (add_to_processing (some ["B"]) "A") "A"
      = add_to_processing (some ["B"]) "A" :=
  ⟨(C7_add_idempotent_amended (some ["A"]) "A").1 (by decide),
   (C7_add_idempotent_amended (some ["B"]) "A").2.1⟩

/-- Claim C8 (confirmed): the derived secondary job definition keeps every
field of the loaded data artifact except that its name gains the fixed
`_without_ligands` suffix and its sequence list is filtered to the
non-ligand components, in their original order (the filtered list is a
sublist of the original); and the second engine invocation receives exactly
that derived definition. -/
theorem C8_derive_secondary :
    (∀ (dj : JobDef) (l : List SeqComp), dj.sequences = some l →
      (deriveSecondary dj).name = dj.name ++ "_without_ligands" ∧
      (deriveSecondary dj).sequences = some (l.filter (fun s => !s.hasLigand)) ∧
      (l.filter (fun s => !s.hasLigand)).Sublist l ∧
      (deriveSecondary dj).others = dj.others) ∧
    ∀ (engine : Engine) (j : JobDef) (fs : FS) (dj : JobDef),
      fs.readFile (canonFolder j.name) (dataFile j.name) = some (.dataObj dj) →
      (ligandPhase engine j fs).2.2 = [.execInvoked (deriveSecondary dj)] := by
  constructor
  · intro dj l h
    refine ⟨rfl, ?_, List.filter_sublist l, rfl⟩
    simp [deriveSecondary, h]
  · intro engine j fs dj h
    simp [ligandPhase, h]

/-- Witness for C8, at a two-component artifact. -/
theorem C8_derive_secondary_witness :
    ((deriveSecondary djW).name = djW.name ++ "_without_ligands" ∧
     (deriveSecondary djW).sequences
       = some (([⟨true, "ATP"⟩, ⟨false, "MKV"⟩] : List SeqComp).filter
           (fun s => !s.hasLigand)) ∧
     (([⟨true, "ATP"⟩, ⟨false, "MKV"⟩] : List SeqComp).filter
         (fun s => !s.hasLigand)).Sublist [⟨true, "ATP"⟩, ⟨false, "MKV"⟩] ∧
     (deriveSecondary djW).others = djW.others) ∧
    (ligandPhase okEngine djW fsData).2.2 = [.execInvoked (deriveSecondary djW)] :=
  ⟨C8_derive_secondary.1 djW [⟨true, "ATP"⟩, ⟨false, "MKV"⟩] rfl,
   C8_derive_secondary.2 okEngine djW fsData djW rfl⟩

/-- Claim C9 (confirmed): a summary object lacking the `ranking_score` field
reads as the sentinel score −1; in particular when the primary score is
absent and the ligand-free score is one half, the ligand-free candidate wins
and is renamed to the Canonical name. -/
theorem C9_missing_score_default :
    (∀ (fs : FS) (folder file : String),
      fs.readFile folder file = some (.summary none) →
      readRankingScore fs folder file = .ok (-1)) ∧
    ∀ (fs : FS) (pid : String),
      fs.readFile (canonFolder pid) (canonSummaryFile pid) = some (.summary none) →
      fs.readFile (wlFolder pid) (wlSummaryFile pid) = some (.summary (some (1/2))) →
      ∃ fsout, selectorTry fs pid = .ok fsout ∧
        fsout.dirs (canonFolder pid) = fs.dirs (wlFolder pid) ∧
        fsout.dirs (wlFolder pid) = none := by
  constructor
  · intro fs folder file h
    simp [readRankingScore, h]
  · intro fs pid hc hw
    have hp1 : readRankingScore fs (canonFolder pid) (canonSummaryFile pid) = .ok (-1) := by
      simp [readRankingScore, hc]
    have hw1 : readRankingScore fs (wlFolder pid) (wlSummaryFile pid) = .ok (1/2) := by
      simp [readRankingScore, hw]
    obtain ⟨fsout, h1, h2, h3, h4⟩ := selectorTry_spec fs pid (-1) (1/2) hp1 hw1
    refine ⟨fsout, h1, ?_, h2⟩
    rw [h3, if_neg]
    norm_num

/-- Witness for C9, at the tree whose primary summary has no score. -/
theorem C9_missing_score_default_witness :
    readRankingScore fsNoScore "abc" "abc_summary_confidences.json" = .ok (-1) ∧
    ∃ fsout, selectorTry fsNoScore "abc" = .ok fsout ∧
      fsout.dirs (canonFolder "abc") = fsNoScore.dirs (wlFolder "abc") ∧
      fsout.dirs (wlFolder "abc") = none :=
  ⟨C9_missing_score_default.1 fsNoScore "abc" "abc_summary_confidences.json" rfl,
   C9_missing_score_default.2 fsNoScore "abc" rfl rfl⟩

/-- Claim C10 (confirmed): `remove` rewrites an existing backing store by
deleting every line equal to the name — the name no longer occurs at all —
while the remaining lines keep their original relative order (the result is
a sublist of the store) and every other name keeps its exact number of
occurrences. -/
theorem C10_remove_all_occurrences (current_objects : List String) (object_name : String) :
    remove_from_processing (some current_objects) object_name
      = some (rewriteKeep object_name current_objects) ∧
    object_name ∉ rewriteKeep object_name current_objects ∧
    (rewriteKeep object_name current_objects).Sublist current_objects ∧
    ∀ m, m ≠ object_name →
      (rewriteKeep object_name current_objects).count m = current_objects.count m := by
  refine ⟨rfl, ?_, sublist_rewriteKeep _ _,
    fun m hm => count_rewriteKeep_other _ _ hm _⟩
  intro h
  exact ((mem_rewriteKeep_iff _ _ _).mp h).2 rfl

/-- Witness for C10, on a store with a duplicated name. -/
theorem C10_remove_all_occurrences_witness :
    remove_from_processing (some ["A", "B", "A"]) "A" = some ["B"] ∧
    (rewriteKeep "A" ["A", "B", "A"]).count "B" = (["A", "B", "A"] : List String).count "B" :=
  ⟨by decide,
   (C10_remove_all_occurrences ["A", "B", "A"] "A").2.2.2 "B" (by decide)⟩

end AF3
